import Mathlib

/-!
Verification of the incremental multi-bundle build pipeline of the
creatorcore repository: content hashing, change detection, unit discovery,
the build orchestrator and manifest regeneration.

The model is a shallow embedding of three scripts:
  detect-changed-interfaces.js  (namespace Detect)
  generate-bundle-manifest.js   (namespace GenManifest)
  build-interfaces.js           (namespace BuildScript)

Modelling conventions:
  A directory is recorded together with the list of files its recursive
  traversal produces, in traversal order; each file carries its path
  relative to the directory root and its content, with content = none
  standing for a file that is absent or unreadable at hashing time.
  The cryptographic hash (sha256 hex digest) is an arbitrary function
  H : String -> String, a parameter of every definition that hashes; a
  hash object built by createHash, a sequence of update calls and digest
  is modelled as H applied to the concatenation of the updated chunks.
  JSON parsing of the manifest file is external library code, so the
  on-disk manifest is modelled as absent, unparseable, or parsed.
-/

namespace CreatorCore

/-! Executable string primitives. The corresponding standard library
functions are compiled behind well-founded recursion and do not reduce
inside the kernel, so the JavaScript string operations the scripts use
(startsWith, slice, split, trim) are embedded as structural recursions
over the character list of the string. -/

/-- Whether the first list is an initial segment of the second. -/
def isPrefixChars : List Char → List Char → Bool
  | [], _ => true
  | _ :: _, [] => false
  | c :: cs, d :: ds => c == d && isPrefixChars cs ds

/-- The startsWith test of JavaScript strings. -/
def strStartsWith (s pre : String) : Bool := isPrefixChars pre.data s.data

/-- Split a character list at every occurrence of the separator. -/
def splitChars (sep : Char) : List Char → List (List Char)
  | [] => [[]]
  | c :: cs =>
    if c == sep then [] :: splitChars sep cs
    else
      match splitChars sep cs with
      | [] => [[c]]
      | w :: ws => (c :: w) :: ws

/-- The split of JavaScript strings on a one-character separator. -/
def strSplitOn (s : String) (sep : Char) : List String :=
  (splitChars sep s.data).map String.mk

/-- The slice of a JavaScript string from character index n on. -/
def strDrop (s : String) (n : Nat) : String := String.mk (s.data.drop n)

/-- The trim of JavaScript strings: strip whitespace at both ends. -/
def strTrim (s : String) : String :=
  String.mk (((s.data.dropWhile Char.isWhitespace).reverse.dropWhile
    Char.isWhitespace).reverse)

/-- One file inside a directory tree: its path relative to the directory
root and its content, none when the file cannot be read. -/
structure FileEntry where
  relPath : String
  content : Option String
deriving DecidableEq

/-- A directory: whether it exists on disk, and the files its recursive
traversal yields, in file-system enumeration order. -/
structure Dir where
  present : Bool
  files : List FileEntry
deriving DecidableEq

/-- getAllFiles from the two hashing scripts: a missing directory
contributes no files, otherwise the recursive traversal list. -/
def getAllFiles (d : Dir) : List FileEntry :=
  if d.present then d.files else []

/-- hashFile: sha256 of the file bytes, null when reading fails.
Identical in detect-changed-interfaces.js and generate-bundle-manifest.js. -/
def hashFile (H : String → String) (f : FileEntry) : Option String :=
  f.content.map H

/-- Comparison used to sort the collected file list; the scripts sort the
absolute path strings, which share the directory prefix, so the order is
the lexicographic order of the relative paths. -/
def fileLe (a b : FileEntry) : Prop := a.relPath ≤ b.relPath

/-- Strict version of fileLe, used to identify sorted lists up to
permutation when the paths are distinct. -/
def fileLt (a b : FileEntry) : Prop := a.relPath < b.relPath

instance : DecidableRel fileLe := fun a b =>
  inferInstanceAs (Decidable (a.relPath ≤ b.relPath))

instance : DecidableRel fileLt := fun a b =>
  inferInstanceAs (Decidable (a.relPath < b.relPath))

instance : IsTotal FileEntry fileLe := ⟨fun a b => le_total a.relPath b.relPath⟩

instance : IsTrans FileEntry fileLe := ⟨fun _ _ _ h₁ h₂ => le_trans h₁ h₂⟩

instance : IsAntisymm FileEntry fileLt :=
  ⟨fun _ _ h₁ h₂ => absurd h₁ (lt_asymm h₂)⟩

/-- The sorting step of hashDirectory. -/
def sortFiles (l : List FileEntry) : List FileEntry := l.insertionSort fileLe

/-- hashDirectory: sort the collected files, then fold every readable
file as relativePath, a colon and the file hash into one digest.
Identical in detect-changed-interfaces.js and generate-bundle-manifest.js. -/
def hashDirectory (H : String → String) (d : Dir) : String :=
  let files := sortFiles (getAllFiles d)
  H (String.join (files.filterMap fun f =>
    (hashFile H f).map fun h => f.relPath ++ ":" ++ h))

/-- The digest of the empty update sequence, produced for directories
with no readable files. -/
def emptyDigest (H : String → String) : String := H ""

/-- calculateSharedHash: digest over the shared directory hash and, when
readable, the vite config hash. Identical in both hashing scripts. -/
def calculateSharedHash (H : String → String) (shared : Dir)
    (viteConfig : Option String) : String :=
  let sharedHash := hashDirectory H shared
  H ("shared:" ++ sharedHash ++
    (match viteConfig.map H with
     | some viteHash => "vite:" ++ viteHash
     | none => ""))

/-- One entry of the src/interfaces directory as readdirSync reports it:
its name, whether it is a directory, whether index.tsx exists inside it,
and the file tree below it (for hashing). -/
structure UnitDir where
  name : String
  isDir : Bool
  hasIndex : Bool
  tree : Dir
deriving DecidableEq

/-- The src/interfaces root: whether it exists, and its entries. -/
structure RootDir where
  present : Bool
  entries : List UnitDir
deriving DecidableEq

/-- The filter all three discovery loops apply to the entries of the
interfaces root: skip names starting with an underscore or a dot, skip
non-directories, skip directories without index.tsx. The loop body is
identical in the three scripts. -/
def unitFilter (entries : List UnitDir) : List UnitDir :=
  entries.filter fun e =>
    !(strStartsWith e.name "_") && !(strStartsWith e.name ".") && e.isDir && e.hasIndex

/-- A discovered interface as the detector and the manifest generator
represent it: name and source tree. -/
structure Iface where
  name : String
  tree : Dir
deriving DecidableEq

/-- discoverInterfaces of detect-changed-interfaces.js; none models the
process.exit(1) taken when the interfaces root does not exist. -/
def Detect.discoverInterfaces (root : RootDir) : Option (List Iface) :=
  if root.present then
    some ((unitFilter root.entries).map fun e => ⟨e.name, e.tree⟩)
  else none

/-- discoverInterfaces of generate-bundle-manifest.js; a missing
interfaces root yields the empty list, not an error. -/
def GenManifest.discoverInterfaces (root : RootDir) : List Iface :=
  if root.present then
    (unitFilter root.entries).map fun e => ⟨e.name, e.tree⟩
  else []

/-- The per-bundle record of the manifest. -/
structure ManifestEntry where
  sourceHash : String
  bundleFile : String
  bundleSize : Nat
  builtAt : String
deriving DecidableEq

/-- The persisted manifest; bundles is the JSON object as an association
list from interface name to its entry. -/
structure Manifest where
  version : String
  generatedAt : String
  sharedHash : String
  bundles : List (String × ManifestEntry)
deriving DecidableEq

/-- The state of the manifest file on disk: absent, present but failing
to read or to parse as JSON, or successfully parsed. -/
inductive ManifestFile where
  | absent
  | unparseable
  | parsed (m : Manifest)
deriving DecidableEq

/-- loadManifest: null when the file is absent and null when reading or
JSON.parse throws, the parsed manifest otherwise. -/
def loadManifest : ManifestFile → Option Manifest
  | .absent => none
  | .unparseable => none
  | .parsed m => some m

/-- Lookup in an association list keyed by strings, the model of reading
a field of a JSON object and of stat on a directory of files. -/
def alookup {β : Type} (l : List (String × β)) (k : String) : Option β :=
  match l with
  | [] => none
  | (k₁, v) :: rest => if k₁ = k then some v else alookup rest k

/-- Overwrite or add one key of an association list, the model of
writing the file of that name into the bundles directory. -/
def aset {β : Type} (l : List (String × β)) (k : String) (v : β) :
    List (String × β) :=
  match l with
  | [] => [(k, v)]
  | (k₁, v₁) :: rest => if k₁ = k then (k, v) :: rest else (k₁, v₁) :: aset rest k v

/-- A built bundle file: its bytes and its mtime as an ISO string. -/
structure Bundle where
  content : String
  mtime : String
deriving DecidableEq

/-- The slice of the checkout the pipeline reads and writes: the
interfaces root, the shared directory, the vite config file content
(none when unreadable), the manifest file and the bundle files of
public/bundles keyed by interface name. -/
structure FS where
  interfacesRoot : RootDir
  shared : Dir
  viteConfig : Option String
  manifestFile : ManifestFile
  bundles : List (String × Bundle)
deriving DecidableEq

/-- The per-interface change test of detectChanges: changed when the
manifest has no entry for the interface or the recorded sourceHash
differs from the current directory hash. -/
def Detect.entryChanged (H : String → String) (m : Manifest) (i : Iface) : Bool :=
  match alookup m.bundles i.name with
  | none => true
  | some entry => entry.sourceHash != hashDirectory H i.tree

/-- The result object of detectChanges. -/
structure DetectResult where
  changedInterfaces : List String
  reason : String
  sharedChanged : Bool
deriving DecidableEq

/-- detectChanges of detect-changed-interfaces.js: no manifest means all
interfaces changed; a shared hash mismatch means all interfaces changed
with sharedChanged true; otherwise each interface is changed when its
manifest entry is missing or its recorded sourceHash differs from the
current directory hash. none models the fatal discovery exit. -/
def Detect.detectChanges (H : String → String) (fs : FS) : Option DetectResult :=
  match Detect.discoverInterfaces fs.interfacesRoot with
  | none => none
  | some interfaces =>
    let manifest := loadManifest fs.manifestFile
    let currentSharedHash := calculateSharedHash H fs.shared fs.viteConfig
    match manifest with
    | none =>
      some ⟨interfaces.map (·.name),
        "No manifest found - all interfaces need building", false⟩
    | some m =>
      if m.sharedHash ≠ currentSharedHash then
        some ⟨interfaces.map (·.name),
          "Shared dependencies changed - all interfaces need rebuilding", true⟩
      else
        let changed := interfaces.filter (Detect.entryChanged H m)
        some ⟨changed.map (·.name),
          if changed.length > 0 then
            toString changed.length ++ " interface(s) changed"
          else "No changes detected", false⟩

/-- getBundleInfo of generate-bundle-manifest.js: null when the bundle
file is absent, otherwise its file name, size and mtime. -/
def GenManifest.getBundleInfo (bundles : List (String × Bundle))
    (interfaceName : String) : Option (String × Nat × String) :=
  match alookup bundles interfaceName with
  | none => none
  | some b => some (interfaceName ++ ".js", b.content.length, b.mtime)

/-- The per-interface record step of generateManifest: no record when
the bundle file is absent, otherwise an entry carrying the current
source hash and the bundle file data. -/
def GenManifest.bundleEntry (H : String → String) (bundles : List (String × Bundle))
    (i : Iface) : Option (String × ManifestEntry) :=
  match GenManifest.getBundleInfo bundles i.name with
  | none => none
  | some info =>
    some (i.name,
      ({ sourceHash := hashDirectory H i.tree, bundleFile := info.1,
         bundleSize := info.2.1, builtAt := info.2.2 } : ManifestEntry))

/-- generateManifest of generate-bundle-manifest.js: rediscover every
interface, recompute the shared hash, and record an entry for every
interface whose bundle file exists, with its current source hash. -/
def GenManifest.generateManifest (H : String → String) (fs : FS)
    (now : String) : Manifest :=
  let interfaces := GenManifest.discoverInterfaces fs.interfacesRoot
  let sharedHash := calculateSharedHash H fs.shared fs.viteConfig
  let bundles := interfaces.filterMap (GenManifest.bundleEntry H fs.bundles)
  { version := "1.0.0", generatedAt := now, sharedHash := sharedHash,
    bundles := bundles }

/-- Capitalize the first character of one hyphen-separated component, as
charAt(0).toUpperCase() plus slice(1) does. -/
def capitalizeFirst (part : String) : String :=
  match part.data with
  | [] => ""
  | c :: rest => String.mk (Char.toUpper c :: rest)

/-- The global symbol computation of build-interfaces.js: join the
capitalized hyphen-separated parts of the directory name, then apply the
hardcoded legacy override for the widget directory. -/
def BuildScript.globalNameOf (entry : String) : String :=
  let globalName := String.join ((strSplitOn entry '-').map capitalizeFirst)
  if entry = "widget" then "NextWidget" else globalName

/-- Written from the words of the spec, for comparison with the source
computation: the PascalCase conversion of a kebab-case directory name
capitalizes each hyphen-separated component and concatenates them. -/
def pascalCase (name : String) : String :=
  String.join ((strSplitOn name '-').map capitalizeFirst)

/-- A discovered interface as build-interfaces.js represents it: name,
source tree (standing for the entry path) and global symbol. -/
structure BuildIface where
  name : String
  tree : Dir
  globalName : String
deriving DecidableEq

/-- The scan loop of discoverInterfaces in build-interfaces.js. -/
def BuildScript.scan (entries : List UnitDir) : List BuildIface :=
  (unitFilter entries).map fun e => ⟨e.name, e.tree, BuildScript.globalNameOf e.name⟩

/-- discoverInterfaces of build-interfaces.js; none models the
process.exit(1) taken when the interfaces root does not exist. -/
def BuildScript.discoverInterfaces (root : RootDir) : Option (List BuildIface) :=
  if root.present then some (BuildScript.scan root.entries) else none

/-- The result of parseArgs in build-interfaces.js. -/
structure Args where
  only : Option (List String)
  changed : Bool
  force : Bool
deriving DecidableEq

/-- parseArgs of build-interfaces.js: the value after the only flag is
split on commas and trimmed, changed and force are booleans. -/
def BuildScript.parseArgs (argv : List String) : Args :=
  argv.foldl
    (fun r arg =>
      if strStartsWith arg "--only=" then
        { r with only := some ((strSplitOn (strDrop arg 7) ',').map strTrim) }
      else if arg = "--changed" then { r with changed := true }
      else if arg = "--force" then { r with force := true }
      else r)
    { only := none, changed := false, force := false }

/-- Observable outcome of one orchestrator run: the file system it
leaves behind, the process exit code, the interfaces handed to the
bundler in order, and the console messages. -/
structure MainExit where
  fs : FS
  exitCode : Nat
  built : List String
  log : List String
deriving DecidableEq

/-- The build loop of main: write each selected bundle file in turn.
The external bundler is the black-box parameter bundler, giving the
bytes it produces for an interface. -/
def BuildScript.buildAll (bundler : BuildIface → String) (now : String)
    (bundles : List (String × Bundle)) (toBuild : List BuildIface) :
    List (String × Bundle) :=
  toBuild.foldl (fun acc i => aset acc i.name ⟨bundler i, now⟩) bundles

/-- The shared tail of main once the interfaces to build are selected:
clear the bundles directory only when neither only nor changed was
passed, run the bundler on each selected interface, then regenerate the
manifest from the resulting tree. -/
def BuildScript.runBuild (H : String → String) (bundler : BuildIface → String)
    (now : String) (fs : FS) (args : Args) (toBuild : List BuildIface)
    (log : List String) : MainExit :=
  let fs₁ := if args.only.isNone && !args.changed then { fs with bundles := [] } else fs
  let fs₂ := { fs₁ with bundles := BuildScript.buildAll bundler now fs₁.bundles toBuild }
  let fs₃ := { fs₂ with manifestFile := .parsed (GenManifest.generateManifest H fs₂ now) }
  ⟨fs₃, 0, toBuild.map (·.name),
    log ++ toBuild.map (fun i => "Building " ++ i.name)
        ++ [toString toBuild.length ++ " interface(s) built successfully!"]⟩

/-- The opening console lines of main once at least one interface was
discovered: the discovery banner and the found-interfaces summary. -/
def BuildScript.logHeader (interfaces : List BuildIface) : List String :=
  ["Discovering interfaces...",
   "Found " ++ toString interfaces.length ++ " interface(s): " ++
     String.intercalate ", " (interfaces.map (·.name))]

/-- The body of main after discovery produced the interface list, split
out of main so each branch is one equation; the locals of the source
(validNames, requestedNames, invalidNames) are inlined. -/
def BuildScript.mainBody (H : String → String) (bundler : BuildIface → String)
    (detectOut : Option (List String)) (now : String) (fs : FS) (args : Args)
    (interfaces : List BuildIface) : MainExit :=
  if interfaces = [] then
    ⟨fs, 0, [], ["Discovering interfaces...", "No interfaces found to build."]⟩
  else if args.changed && !args.force then
    match detectOut with
    | none =>
      BuildScript.runBuild H bundler now fs args interfaces
        (BuildScript.logHeader interfaces ++
          ["Warning: Could not detect changes, building all interfaces"])
    | some changedNames =>
      if changedNames = [] then
        ⟨fs, 0, [], BuildScript.logHeader interfaces ++
          ["No interfaces changed, skipping build."]⟩
      else
        BuildScript.runBuild H bundler now fs args
          (interfaces.filter fun i => changedNames.contains i.name)
          (BuildScript.logHeader interfaces ++
            ["Changed interfaces: " ++ String.intercalate ", " changedNames])
  else if args.only.isSome && !args.force then
    if (args.only.getD []).filter
        (fun n => !((interfaces.map (·.name)).contains n)) ≠ [] then
      ⟨fs, 1, [],
        BuildScript.logHeader interfaces ++
          ["Error: Unknown interface(s): " ++ String.intercalate ", "
              ((args.only.getD []).filter fun n => !((interfaces.map (·.name)).contains n)),
            "Available: " ++ String.intercalate ", " (interfaces.map (·.name))]⟩
    else
      BuildScript.runBuild H bundler now fs args
        (interfaces.filter fun i => (args.only.getD []).contains i.name)
        (BuildScript.logHeader interfaces ++
          ["Building specified interfaces: " ++
            String.intercalate ", " (args.only.getD [])])
  else if args.force then
    BuildScript.runBuild H bundler now fs args interfaces
      (BuildScript.logHeader interfaces ++ ["Force rebuilding all interfaces..."])
  else
    BuildScript.runBuild H bundler now fs args interfaces
      (BuildScript.logHeader interfaces)

/-- main of build-interfaces.js. detectOut is the parsed stdout of the
detection subprocess getChangedInterfaces spawns, none when the
subprocess fails or its output is not valid JSON. -/
def BuildScript.main (H : String → String) (bundler : BuildIface → String)
    (detectOut : Option (List String)) (now : String) (fs : FS)
    (args : Args) : MainExit :=
  match BuildScript.discoverInterfaces fs.interfacesRoot with
  | none =>
    ⟨fs, 1, [],
      ["Discovering interfaces...", "Error: src/interfaces/ directory not found"]⟩
  | some interfaces => BuildScript.mainBody H bundler detectOut now fs args interfaces

/-- The eligibility condition of the discovery filter, written out as a
proposition for the characterization theorems. -/
def unitEligible (e : UnitDir) : Prop :=
  strStartsWith e.name "_" = false ∧ strStartsWith e.name "." = false ∧
    e.isDir = true ∧ e.hasIndex = true

instance (e : UnitDir) : Decidable (unitEligible e) := by
  unfold unitEligible; infer_instance

/-! Concrete fixtures used by witnesses and counterexamples. -/

/-- A readable source file. -/
def fileA : FileEntry := ⟨"Component.tsx", some "alpha"⟩

/-- Another readable source file. -/
def fileB : FileEntry := ⟨"index.tsx", some "beta"⟩

/-- A file that cannot be read at hashing time. -/
def fileU : FileEntry := ⟨"notes.txt", none⟩

/-- Source tree of the widget interface fixture. -/
def dirW : Dir := ⟨true, [⟨"index.tsx", some "widget-src"⟩]⟩

/-- Source tree of the dashboard interface fixture. -/
def dirD : Dir := ⟨true, [⟨"index.tsx", some "dash-src"⟩]⟩

/-- The widget entry of the interfaces root fixture. -/
def entryW : UnitDir := ⟨"widget", true, true, dirW⟩

/-- The dashboard entry of the interfaces root fixture. -/
def entryD : UnitDir := ⟨"dashboard", true, true, dirD⟩

/-- An interfaces root holding the widget and dashboard units. -/
def rootWD : RootDir := ⟨true, [entryW, entryD]⟩

/-- The shared directory fixture. -/
def sharedDir : Dir := ⟨true, [⟨"bubble/logger.ts", some "log-src"⟩]⟩

/-- A checkout with two units, no manifest and no bundles. -/
def fsNoManifest : FS := ⟨rootWD, sharedDir, some "vite-src", .absent, []⟩

/-- A parsed manifest whose recorded shared hash no longer matches. -/
def manifestStale : Manifest := ⟨"1.0.0", "t0", "stale", []⟩

/-- The two-unit checkout with the stale manifest on disk. -/
def fsStaleShared : FS := { fsNoManifest with manifestFile := .parsed manifestStale }

/-- The two-unit checkout with a manifest file that fails to parse. -/
def fsCorrupt : FS := { fsNoManifest with manifestFile := .unparseable }

/-- An interfaces root that does not exist on disk. -/
def missingRoot : RootDir := ⟨false, [entryW]⟩

/-- The prior bundle file of the widget unit. -/
def bundleW : Bundle := ⟨"widget-bundle", "t0"⟩

/-- The prior bundle file of the dashboard unit. -/
def bundleD : Bundle := ⟨"dash-bundle", "t0"⟩

/-- A manifest recorded by an earlier successful full build of the
two-unit checkout, with both source digests still current. -/
def manifestPrior : Manifest :=
  ⟨"1.0.0", "t0", calculateSharedHash id sharedDir (some "vite-src"),
    [("widget", ⟨hashDirectory id dirW, "widget.js", bundleW.content.length, "t0"⟩),
     ("dashboard", ⟨hashDirectory id dirD, "dashboard.js", bundleD.content.length, "t0"⟩)]⟩

/-- The two-unit checkout right after that earlier full build. -/
def fsPrior : FS := ⟨rootWD, sharedDir, some "vite-src", .parsed manifestPrior,
  [("widget", bundleW), ("dashboard", bundleD)]⟩

/-! Helper lemmas about the sorting step of hashDirectory. -/

theorem sortFiles_sorted (l : List FileEntry) : (sortFiles l).Sorted fileLe :=
  List.sorted_insertionSort fileLe l

theorem sortFiles_perm (l : List FileEntry) : (sortFiles l).Perm l :=
  List.perm_insertionSort fileLe l

theorem sorted_lt_of_nodup_relPath {l : List FileEntry} (hs : l.Sorted fileLe)
    (hn : (l.map FileEntry.relPath).Nodup) : l.Sorted fileLt := by
  have hne : l.Pairwise fun a b => a.relPath ≠ b.relPath := List.pairwise_map.mp hn
  exact (List.Pairwise.and hs hne).imp fun h => lt_of_le_of_ne h.1 h.2

theorem sortFiles_eq_of_perm {l₁ l₂ : List FileEntry} (hp : l₁.Perm l₂)
    (hn : (l₁.map FileEntry.relPath).Nodup) : sortFiles l₁ = sortFiles l₂ := by
  have hperm : (sortFiles l₁).Perm (sortFiles l₂) :=
    (sortFiles_perm l₁).trans (hp.trans (sortFiles_perm l₂).symm)
  have hn₁ : ((sortFiles l₁).map FileEntry.relPath).Nodup :=
    (((sortFiles_perm l₁).map FileEntry.relPath).nodup_iff).mpr hn
  have hn₂ : ((sortFiles l₂).map FileEntry.relPath).Nodup :=
    ((hperm.map FileEntry.relPath).nodup_iff).mp hn₁
  exact List.eq_of_perm_of_sorted hperm
    (sorted_lt_of_nodup_relPath (sortFiles_sorted l₁) hn₁)
    (sorted_lt_of_nodup_relPath (sortFiles_sorted l₂) hn₂)

/-- C3: for every directory tree, the digest depends only on the set of
relative-path and content pairs: enumerations that are permutations of
one another (with the real-file-system guarantee that relative paths are
distinct) hash to the same value, because the list is sorted first. -/
theorem hashDirectory_deterministic (H : String → String) (d₁ d₂ : Dir)
    (hperm : (getAllFiles d₁).Perm (getAllFiles d₂))
    (hnodup : ((getAllFiles d₁).map FileEntry.relPath).Nodup) :
    hashDirectory H d₁ = hashDirectory H d₂ := by
  unfold hashDirectory
  rw [sortFiles_eq_of_perm hperm hnodup]

theorem hashDirectory_deterministic_witness :
    (getAllFiles ⟨true, [fileA, fileB]⟩).Perm (getAllFiles ⟨true, [fileB, fileA]⟩)
    ∧ ((getAllFiles ⟨true, [fileA, fileB]⟩).map FileEntry.relPath).Nodup
    ∧ hashDirectory id ⟨true, [fileA, fileB]⟩ = hashDirectory id ⟨true, [fileB, fileA]⟩ :=
  ⟨by decide, by decide,
    hashDirectory_deterministic id ⟨true, [fileA, fileB]⟩ ⟨true, [fileB, fileA]⟩
      (by decide) (by decide)⟩

/-- Skipping an unreadable file: it contributes nothing to the digest. -/
theorem hashDirectory_skips_unreadable (H : String → String) (p : Bool)
    (l₁ l₂ : List FileEntry) (e : FileEntry) (he : e.content = none)
    (hn : ((l₁ ++ e :: l₂).map FileEntry.relPath).Nodup) :
    hashDirectory H ⟨p, l₁ ++ e :: l₂⟩ = hashDirectory H ⟨p, l₁ ++ l₂⟩ := by
  cases p with
  | false => rfl
  | true =>
    have hga₁ : getAllFiles ⟨true, l₁ ++ e :: l₂⟩ = l₁ ++ e :: l₂ := rfl
    have hga₂ : getAllFiles ⟨true, l₁ ++ l₂⟩ = l₁ ++ l₂ := rfl
    have hp₁ : (sortFiles (l₁ ++ e :: l₂)).Perm (e :: (l₁ ++ l₂)) :=
      (sortFiles_perm _).trans List.perm_middle
    have hmem : e ∈ sortFiles (l₁ ++ e :: l₂) :=
      hp₁.mem_iff.mpr (List.mem_cons_self _ _)
    have herase_perm : ((sortFiles (l₁ ++ e :: l₂)).erase e).Perm (sortFiles (l₁ ++ l₂)) := by
      have h₁ : (e :: (sortFiles (l₁ ++ e :: l₂)).erase e).Perm (e :: (l₁ ++ l₂)) :=
        (List.perm_cons_erase hmem).symm.trans hp₁
      exact ((List.perm_cons e).mp h₁).trans (sortFiles_perm _).symm
    have hnodup_sorted : ((sortFiles (l₁ ++ e :: l₂)).map FileEntry.relPath).Nodup :=
      (((sortFiles_perm (l₁ ++ e :: l₂)).map FileEntry.relPath).nodup_iff).mpr hn
    have hsub : List.Sublist ((sortFiles (l₁ ++ e :: l₂)).erase e)
        (sortFiles (l₁ ++ e :: l₂)) := List.erase_sublist _ _
    have herase_sorted : ((sortFiles (l₁ ++ e :: l₂)).erase e).Sorted fileLt :=
      (sorted_lt_of_nodup_relPath (sortFiles_sorted _) hnodup_sorted).sublist hsub
    have hnodup₂ : (((sortFiles (l₁ ++ e :: l₂)).erase e).map FileEntry.relPath).Nodup :=
      List.Nodup.sublist (hsub.map FileEntry.relPath) hnodup_sorted
    have hsorted₂ : (sortFiles (l₁ ++ l₂)).Sorted fileLt :=
      sorted_lt_of_nodup_relPath (sortFiles_sorted _)
        ((herase_perm.map FileEntry.relPath).nodup_iff.mp hnodup₂)
    have herase_eq : (sortFiles (l₁ ++ e :: l₂)).erase e = sortFiles (l₁ ++ l₂) :=
      List.eq_of_perm_of_sorted herase_perm herase_sorted hsorted₂
    obtain ⟨a, b, hea, hsplit, herase⟩ := List.exists_erase_eq hmem
    have hfe : ((hashFile H e).map fun h => e.relPath ++ ":" ++ h) = none := by
      rw [hashFile, he]; rfl
    unfold hashDirectory
    rw [hga₁, hga₂, ← herase_eq, herase, hsplit]
    simp only [List.filterMap_append, List.filterMap_cons, hfe]

/-- C6: the hasher is total: a missing directory hashes to the stable
empty digest, and a file that is absent or unreadable at hashing time is
skipped, contributing nothing to the directory digest. -/
theorem contentHasher_totality (H : String → String) :
    (∀ files : List FileEntry, hashDirectory H ⟨false, files⟩ = emptyDigest H)
    ∧ hashDirectory H ⟨true, []⟩ = emptyDigest H
    ∧ (∀ f : FileEntry, f.content = none → hashFile H f = none)
    ∧ (∀ (p : Bool) (l₁ l₂ : List FileEntry) (e : FileEntry),
        e.content = none → ((l₁ ++ e :: l₂).map FileEntry.relPath).Nodup →
        hashDirectory H ⟨p, l₁ ++ e :: l₂⟩ = hashDirectory H ⟨p, l₁ ++ l₂⟩) := by
  refine ⟨fun _ => rfl, rfl, fun f hf => by rw [hashFile, hf]; rfl,
    fun p l₁ l₂ e he hn => hashDirectory_skips_unreadable H p l₁ l₂ e he hn⟩

theorem contentHasher_totality_witness :
    hashDirectory id ⟨false, [fileA]⟩ = emptyDigest id
    ∧ fileU.content = none
    ∧ hashFile id fileU = none
    ∧ ((([fileA] ++ fileU :: [fileB]).map FileEntry.relPath).Nodup)
    ∧ hashDirectory id ⟨true, [fileA] ++ fileU :: [fileB]⟩ =
        hashDirectory id ⟨true, [fileA] ++ [fileB]⟩ :=
  ⟨(contentHasher_totality id).1 [fileA], rfl,
    (contentHasher_totality id).2.2.1 fileU rfl, by decide,
    (contentHasher_totality id).2.2.2 true [fileA] [fileB] fileU rfl (by decide)⟩

/-! Change detector: shared-hash invalidation and manifest failure. -/

/-- C1: whenever a manifest loads successfully but its recorded
sharedHash differs from the freshly computed shared digest, the detector
reports every discovered unit as changed, regardless of the individual
recorded source hashes, with sharedChanged true. -/
theorem detect_shared_change_invalidates_all (H : String → String) (fs : FS)
    (m : Manifest) (hpres : fs.interfacesRoot.present = true)
    (hm : loadManifest fs.manifestFile = some m)
    (hne : m.sharedHash ≠ calculateSharedHash H fs.shared fs.viteConfig) :
    Detect.detectChanges H fs =
      some ⟨(unitFilter fs.interfacesRoot.entries).map (fun e => e.name),
        "Shared dependencies changed - all interfaces need rebuilding", true⟩ := by
  unfold Detect.detectChanges Detect.discoverInterfaces
  rw [hpres]
  simp only [if_true, hm]
  rw [if_pos hne]
  simp [List.map_map, Function.comp]

theorem detect_shared_change_invalidates_all_witness :
    fsStaleShared.interfacesRoot.present = true
    ∧ loadManifest fsStaleShared.manifestFile = some manifestStale
    ∧ manifestStale.sharedHash ≠
        calculateSharedHash id fsStaleShared.shared fsStaleShared.viteConfig
    ∧ Detect.detectChanges id fsStaleShared =
        some ⟨["widget", "dashboard"],
          "Shared dependencies changed - all interfaces need rebuilding", true⟩ :=
  ⟨rfl, rfl, by decide, by
    rw [detect_shared_change_invalidates_all id fsStaleShared manifestStale rfl rfl (by decide)]
    rfl⟩

/-- C4: an absent manifest file, or one that fails to read or to parse
as JSON, makes loadManifest return null, and detection then behaves
exactly as in the no-manifest case: every discovered unit is reported
changed and no error is raised. -/
theorem detect_unreadable_manifest_full_rebuild (H : String → String) (fs : FS)
    (hpres : fs.interfacesRoot.present = true)
    (hm : fs.manifestFile = .absent ∨ fs.manifestFile = .unparseable) :
    loadManifest fs.manifestFile = none
    ∧ Detect.detectChanges H fs = Detect.detectChanges H { fs with manifestFile := .absent }
    ∧ Detect.detectChanges H fs =
        some ⟨(unitFilter fs.interfacesRoot.entries).map (fun e => e.name),
          "No manifest found - all interfaces need building", false⟩ := by
  have hload : loadManifest fs.manifestFile = none := by
    rcases hm with h | h <;> rw [h] <;> rfl
  have key : ∀ g : FS, g.interfacesRoot = fs.interfacesRoot →
      loadManifest g.manifestFile = none →
      Detect.detectChanges H g =
        some ⟨(unitFilter fs.interfacesRoot.entries).map (fun e => e.name),
          "No manifest found - all interfaces need building", false⟩ := by
    intro g hg hl
    unfold Detect.detectChanges Detect.discoverInterfaces
    rw [hg, hpres]
    simp only [if_true]
    rw [hl]
    simp [List.map_map, Function.comp]
  refine ⟨hload, ?_, key fs rfl hload⟩
  rw [key fs rfl hload, key { fs with manifestFile := .absent } rfl rfl]

theorem detect_unreadable_manifest_full_rebuild_witness :
    fsCorrupt.interfacesRoot.present = true
    ∧ fsCorrupt.manifestFile = .unparseable
    ∧ loadManifest fsCorrupt.manifestFile = none
    ∧ Detect.detectChanges id fsCorrupt =
        some ⟨["widget", "dashboard"],
          "No manifest found - all interfaces need building", false⟩ :=
  ⟨rfl, rfl, (detect_unreadable_manifest_full_rebuild id fsCorrupt rfl (Or.inr rfl)).1,
    (detect_unreadable_manifest_full_rebuild id fsCorrupt rfl (Or.inr rfl)).2.2⟩

/-! Unit discovery: scan shape and the missing-root behaviour. -/

theorem mem_unitFilter {entries : List UnitDir} {e : UnitDir} :
    e ∈ unitFilter entries ↔ e ∈ entries ∧ unitEligible e := by
  simp [unitFilter, List.mem_filter, unitEligible, Bool.and_eq_true,
    Bool.not_eq_true', and_assoc]

/-- C8 (amended): each discovery scans exactly the immediate entries of
the interfaces root, keeping an entry iff its name starts with neither
an underscore nor a dot, it is a directory and it contains index.tsx;
the orchestrator and detector discoveries fail fatally iff the root
itself is missing, while the manifest generator returns an empty list in
that case; an existing but empty root yields an empty unit list. -/
theorem discovery_characterization (root : RootDir) :
    (BuildScript.discoverInterfaces root = none ↔ root.present = false)
    ∧ (Detect.discoverInterfaces root = none ↔ root.present = false)
    ∧ (∀ ifs, BuildScript.discoverInterfaces root = some ifs → ∀ i : BuildIface,
        i ∈ ifs ↔ ∃ e, e ∈ root.entries ∧ unitEligible e ∧
          i = ⟨e.name, e.tree, BuildScript.globalNameOf e.name⟩)
    ∧ (∀ ifs, Detect.discoverInterfaces root = some ifs → ∀ i : Iface,
        i ∈ ifs ↔ ∃ e, e ∈ root.entries ∧ unitEligible e ∧ i = ⟨e.name, e.tree⟩)
    ∧ (∀ i : Iface, i ∈ GenManifest.discoverInterfaces root ↔
        root.present = true ∧ ∃ e, e ∈ root.entries ∧ unitEligible e ∧ i = ⟨e.name, e.tree⟩)
    ∧ (root.present = true → root.entries = [] →
        BuildScript.discoverInterfaces root = some []
        ∧ Detect.discoverInterfaces root = some []
        ∧ GenManifest.discoverInterfaces root = []) := by
  refine ⟨?_, ?_, ?_, ?_, ?_, ?_⟩
  · unfold BuildScript.discoverInterfaces
    cases h : root.present <;> simp
  · unfold Detect.discoverInterfaces
    cases h : root.present <;> simp
  · intro ifs hifs i
    unfold BuildScript.discoverInterfaces at hifs
    cases h : root.present with
    | false => rw [h] at hifs; simp at hifs
    | true =>
      rw [h] at hifs
      simp only [if_true] at hifs
      obtain rfl : BuildScript.scan root.entries = ifs := Option.some.inj hifs
      unfold BuildScript.scan
      simp only [List.mem_map]
      constructor
      · rintro ⟨e, he, rfl⟩
        exact ⟨e, (mem_unitFilter.mp he).1, (mem_unitFilter.mp he).2, rfl⟩
      · rintro ⟨e, he, helig, rfl⟩
        exact ⟨e, mem_unitFilter.mpr ⟨he, helig⟩, rfl⟩
  · intro ifs hifs i
    unfold Detect.discoverInterfaces at hifs
    cases h : root.present with
    | false => rw [h] at hifs; simp at hifs
    | true =>
      rw [h] at hifs
      simp only [if_true] at hifs
      obtain rfl : (unitFilter root.entries).map (fun e => (⟨e.name, e.tree⟩ : Iface)) = ifs :=
        Option.some.inj hifs
      simp only [List.mem_map]
      constructor
      · rintro ⟨e, he, rfl⟩
        exact ⟨e, (mem_unitFilter.mp he).1, (mem_unitFilter.mp he).2, rfl⟩
      · rintro ⟨e, he, helig, rfl⟩
        exact ⟨e, mem_unitFilter.mpr ⟨he, helig⟩, rfl⟩
  · intro i
    unfold GenManifest.discoverInterfaces
    cases h : root.present with
    | false => simp
    | true =>
      simp only [if_true, List.mem_map, true_and]
      constructor
      · rintro ⟨e, he, rfl⟩
        exact ⟨e, (mem_unitFilter.mp he).1, (mem_unitFilter.mp he).2, rfl⟩
      · rintro ⟨e, he, helig, rfl⟩
        exact ⟨e, mem_unitFilter.mpr ⟨he, helig⟩, rfl⟩
  · intro hp hempty
    unfold BuildScript.discoverInterfaces Detect.discoverInterfaces
      GenManifest.discoverInterfaces BuildScript.scan unitFilter
    rw [hp, hempty]
    exact ⟨rfl, rfl, rfl⟩

/-- C8 counterexample: on a missing interfaces root the manifest
generator discovery does not fail fatally: it returns the empty list,
the same value an existing empty root produces, while the detector
treats the identical root as fatal; so discovery does not uniformly
fail iff the root is missing, as the claim states. -/
theorem gen_discovery_missing_root_not_fatal :
    GenManifest.discoverInterfaces missingRoot = []
    ∧ GenManifest.discoverInterfaces ⟨true, []⟩ = []
    ∧ Detect.discoverInterfaces missingRoot = none :=
  ⟨rfl, rfl, rfl⟩

theorem discovery_characterization_witness :
    Detect.discoverInterfaces missingRoot = none
    ∧ (⟨"widget", dirW⟩ : Iface) ∈ GenManifest.discoverInterfaces rootWD
    ∧ BuildScript.discoverInterfaces ⟨true, []⟩ = some [] := by
  refine ⟨(discovery_characterization missingRoot).2.1.mpr rfl, ?_, ?_⟩
  · exact ((discovery_characterization rootWD).2.2.2.2.1 ⟨"widget", dirW⟩).mpr
      ⟨rfl, entryW, by decide, by decide, rfl⟩
  · exact ((discovery_characterization ⟨true, []⟩).2.2.2.2.2 rfl rfl).1

/-! Global symbol derivation. -/

/-- C9: the global symbol of every discovered unit is the PascalCase
conversion of its directory name, with the single hardcoded legacy
override mapping the widget directory to NextWidget. -/
theorem global_symbol_derivation :
    (∀ (entries : List UnitDir) (i : BuildIface), i ∈ BuildScript.scan entries →
      i.globalName = if i.name = "widget" then "NextWidget" else pascalCase i.name)
    ∧ pascalCase "dashboard" = "Dashboard"
    ∧ BuildScript.globalNameOf "widget" = "NextWidget"
    ∧ BuildScript.globalNameOf "dashboard" = "Dashboard"
    ∧ BuildScript.globalNameOf "multicurrency-balances" = "MulticurrencyBalances" := by
  refine ⟨?_, by decide, by decide, by decide, by decide⟩
  intro entries i hi
  simp only [BuildScript.scan, List.mem_map] at hi
  obtain ⟨e, _, rfl⟩ := hi
  rfl

theorem global_symbol_derivation_witness :
    (⟨"widget", dirW, BuildScript.globalNameOf "widget"⟩ : BuildIface) ∈
      BuildScript.scan rootWD.entries
    ∧ BuildScript.globalNameOf "widget" =
        (if "widget" = "widget" then "NextWidget" else pascalCase "widget")
    ∧ (⟨"dashboard", dirD, BuildScript.globalNameOf "dashboard"⟩ : BuildIface) ∈
      BuildScript.scan [entryD]
    ∧ BuildScript.globalNameOf "dashboard" =
        (if "dashboard" = "widget" then "NextWidget" else pascalCase "dashboard") := by
  have h₁ : (⟨"widget", dirW, BuildScript.globalNameOf "widget"⟩ : BuildIface) ∈
      BuildScript.scan rootWD.entries := by decide
  have h₂ : (⟨"dashboard", dirD, BuildScript.globalNameOf "dashboard"⟩ : BuildIface) ∈
      BuildScript.scan [entryD] := by decide
  exact ⟨h₁, global_symbol_derivation.1 rootWD.entries _ h₁, h₂,
    global_symbol_derivation.1 [entryD] _ h₂⟩

/-! Association list and build-loop lemmas. -/

theorem alookup_cons {β : Type} (k₁ : String) (v : β) (rest : List (String × β))
    (k : String) :
    alookup ((k₁, v) :: rest) k = if k₁ = k then some v else alookup rest k := rfl

theorem alookup_aset {β : Type} (l : List (String × β)) (k k₁ : String) (v : β) :
    alookup (aset l k v) k₁ = if k = k₁ then some v else alookup l k₁ := by
  induction l with
  | nil => by_cases h : k = k₁ <;> simp [aset, alookup, h]
  | cons hd tl ih =>
    obtain ⟨k₂, v₂⟩ := hd
    by_cases h : k₂ = k
    · subst h
      by_cases hk : k₂ = k₁ <;> simp [aset, alookup, hk]
    · by_cases hk : k₂ = k₁
      · subst hk
        have hne : ¬k = k₂ := fun hh => h hh.symm
        simp [aset, alookup, h, hne]
      · simp [aset, alookup, h, hk, ih]

theorem alookup_buildAll_of_ne (bundler : BuildIface → String) (now : String)
    (toBuild : List BuildIface) (s : List (String × Bundle)) (k : String)
    (h : ∀ i ∈ toBuild, i.name ≠ k) :
    alookup (BuildScript.buildAll bundler now s toBuild) k = alookup s k := by
  induction toBuild generalizing s with
  | nil => rfl
  | cons hd tl ih =>
    have hhd : hd.name ≠ k := h hd (List.mem_cons_self _ _)
    have htl : ∀ i ∈ tl, i.name ≠ k := fun i hi => h i (List.mem_cons_of_mem _ hi)
    show alookup
      (BuildScript.buildAll bundler now (aset s hd.name ⟨bundler hd, now⟩) tl) k = _
    rw [ih _ htl, alookup_aset, if_neg hhd]

theorem alookup_buildAll_of_mem (bundler : BuildIface → String) (now : String)
    (toBuild : List BuildIface) (s : List (String × Bundle)) (i : BuildIface)
    (hi : i ∈ toBuild) (hnodup : (toBuild.map BuildIface.name).Nodup) :
    alookup (BuildScript.buildAll bundler now s toBuild) i.name =
      some ⟨bundler i, now⟩ := by
  induction toBuild generalizing s with
  | nil => cases hi
  | cons hd tl ih =>
    rw [List.map_cons, List.nodup_cons] at hnodup
    show alookup
      (BuildScript.buildAll bundler now (aset s hd.name ⟨bundler hd, now⟩) tl) i.name = _
    rcases List.mem_cons.mp hi with rfl | hmem
    · have htl : ∀ j ∈ tl, j.name ≠ i.name := by
        intro j hj heq
        exact hnodup.1 (heq ▸ List.mem_map_of_mem BuildIface.name hj)
      rw [alookup_buildAll_of_ne _ _ _ _ _ htl, alookup_aset, if_pos rfl]
    · exact ih _ hmem hnodup.2

theorem alookup_manifest_bundles (H : String → String)
    (bundles : List (String × Bundle)) (L : List Iface) (i : Iface)
    (hi : i ∈ L) (hnodup : (L.map Iface.name).Nodup)
    (info : String × Nat × String)
    (hb : GenManifest.getBundleInfo bundles i.name = some info) :
    alookup (L.filterMap (GenManifest.bundleEntry H bundles)) i.name =
      some ⟨hashDirectory H i.tree, info.1, info.2.1, info.2.2⟩ := by
  induction L with
  | nil => cases hi
  | cons hd tl ih =>
    rw [List.map_cons, List.nodup_cons] at hnodup
    rw [List.filterMap_cons]
    rcases List.mem_cons.mp hi with rfl | hmem
    · have hentry : GenManifest.bundleEntry H bundles i =
          some (i.name, ⟨hashDirectory H i.tree, info.1, info.2.1, info.2.2⟩) := by
        unfold GenManifest.bundleEntry
        rw [hb]
      simp only [hentry]
      simp [alookup]
    · have hne : hd.name ≠ i.name := by
        intro heq
        exact hnodup.1 (heq ▸ List.mem_map_of_mem Iface.name hmem)
      cases hcase : GenManifest.getBundleInfo bundles hd.name with
      | none =>
        have hentry : GenManifest.bundleEntry H bundles hd = none := by
          unfold GenManifest.bundleEntry
          rw [hcase]
        simp only [hentry]
        exact ih hmem hnodup.2
      | some info₂ =>
        have hentry : GenManifest.bundleEntry H bundles hd =
            some (hd.name, ⟨hashDirectory H hd.tree, info₂.1, info₂.2.1, info₂.2.2⟩) := by
          unfold GenManifest.bundleEntry
          rw [hcase]
        simp only [hentry]
        rw [alookup_cons, if_neg hne]
        exact ih hmem hnodup.2

/-! Evaluation lemmas for the orchestrator. -/

theorem main_discovered (H : String → String) (bundler : BuildIface → String)
    (detectOut : Option (List String)) (now : String) (fs : FS) (args : Args)
    (hpres : fs.interfacesRoot.present = true) :
    BuildScript.main H bundler detectOut now fs args =
      BuildScript.mainBody H bundler detectOut now fs args
        (BuildScript.scan fs.interfacesRoot.entries) := by
  have hdisc : BuildScript.discoverInterfaces fs.interfacesRoot =
      some (BuildScript.scan fs.interfacesRoot.entries) := by
    unfold BuildScript.discoverInterfaces; rw [hpres]; simp
  unfold BuildScript.main
  rw [hdisc]

theorem mainBody_default (H : String → String) (bundler : BuildIface → String)
    (detectOut : Option (List String)) (now : String) (fs : FS)
    (interfaces : List BuildIface) (hne : interfaces ≠ []) :
    BuildScript.mainBody H bundler detectOut now fs ⟨none, false, false⟩ interfaces =
      BuildScript.runBuild H bundler now fs ⟨none, false, false⟩ interfaces
        (BuildScript.logHeader interfaces) := by
  unfold BuildScript.mainBody
  rw [if_neg hne]
  rfl

theorem mainBody_changed_detection_failed (H : String → String)
    (bundler : BuildIface → String) (now : String) (fs : FS) (o : Option (List String))
    (interfaces : List BuildIface) (hne : interfaces ≠ []) :
    BuildScript.mainBody H bundler none now fs ⟨o, true, false⟩ interfaces =
      BuildScript.runBuild H bundler now fs ⟨o, true, false⟩ interfaces
        (BuildScript.logHeader interfaces ++
          ["Warning: Could not detect changes, building all interfaces"]) := by
  unfold BuildScript.mainBody
  rw [if_neg hne]
  rfl

theorem mainBody_only_invalid (H : String → String) (bundler : BuildIface → String)
    (detectOut : Option (List String)) (now : String) (fs : FS) (req : List String)
    (interfaces : List BuildIface) (hne : interfaces ≠ [])
    (hinv : req.filter (fun n => !((interfaces.map (·.name)).contains n)) ≠ []) :
    BuildScript.mainBody H bundler detectOut now fs ⟨some req, false, false⟩ interfaces =
      ⟨fs, 1, [],
        BuildScript.logHeader interfaces ++
          ["Error: Unknown interface(s): " ++ String.intercalate ", "
              (req.filter fun n => !((interfaces.map (·.name)).contains n)),
            "Available: " ++ String.intercalate ", " (interfaces.map (·.name))]⟩ := by
  unfold BuildScript.mainBody
  rw [if_neg hne]
  show (if req.filter (fun n => !((interfaces.map (·.name)).contains n)) ≠ [] then _ else _) = _
  rw [if_pos hinv]
  rfl

theorem mainBody_only_valid (H : String → String) (bundler : BuildIface → String)
    (detectOut : Option (List String)) (now : String) (fs : FS) (req : List String)
    (interfaces : List BuildIface) (hne : interfaces ≠ [])
    (hval : req.filter (fun n => !((interfaces.map (·.name)).contains n)) = []) :
    BuildScript.mainBody H bundler detectOut now fs ⟨some req, false, false⟩ interfaces =
      BuildScript.runBuild H bundler now fs ⟨some req, false, false⟩
        (interfaces.filter fun i => req.contains i.name)
        (BuildScript.logHeader interfaces ++
          ["Building specified interfaces: " ++ String.intercalate ", " req]) := by
  unfold BuildScript.mainBody
  rw [if_neg hne]
  show (if req.filter (fun n => !((interfaces.map (·.name)).contains n)) ≠ [] then _ else _) = _
  rw [if_neg (by rw [hval]; exact fun h => h rfl)]
  rfl

theorem runBuild_noclear (H : String → String) (bundler : BuildIface → String)
    (now : String) (fs : FS) (args : Args) (toBuild : List BuildIface)
    (log : List String) (h : (args.only.isNone && !args.changed) = false) :
    BuildScript.runBuild H bundler now fs args toBuild log =
      ⟨{ fs with
          bundles := BuildScript.buildAll bundler now fs.bundles toBuild,
          manifestFile := .parsed (GenManifest.generateManifest H
            { fs with bundles := BuildScript.buildAll bundler now fs.bundles toBuild } now) },
        0, toBuild.map (·.name),
        log ++ toBuild.map (fun i => "Building " ++ i.name)
          ++ [toString toBuild.length ++ " interface(s) built successfully!"]⟩ := by
  unfold BuildScript.runBuild
  rw [h]
  rfl

theorem runBuild_clear (H : String → String) (bundler : BuildIface → String)
    (now : String) (fs : FS) (args : Args) (toBuild : List BuildIface)
    (log : List String) (h : (args.only.isNone && !args.changed) = true) :
    BuildScript.runBuild H bundler now fs args toBuild log =
      ⟨{ fs with
          bundles := BuildScript.buildAll bundler now [] toBuild,
          manifestFile := .parsed (GenManifest.generateManifest H
            { fs with bundles := BuildScript.buildAll bundler now [] toBuild } now) },
        0, toBuild.map (·.name),
        log ++ toBuild.map (fun i => "Building " ++ i.name)
          ++ [toString toBuild.length ++ " interface(s) built successfully!"]⟩ := by
  unfold BuildScript.runBuild
  rw [h]
  rfl

/-! The changed mode with failing detection (C10) and the rejection of
unknown names in the only mode (C5). -/

/-- C10: in changed mode without force, when the detection subprocess
fails or its stdout does not parse (detectOut = none), the orchestrator
neither aborts nor skips: it warns and builds every discovered unit,
exiting 0. -/
theorem changed_mode_detection_failure_builds_all (H : String → String)
    (bundler : BuildIface → String) (now : String) (fs : FS) (o : Option (List String))
    (hpres : fs.interfacesRoot.present = true)
    (hne : unitFilter fs.interfacesRoot.entries ≠ []) :
    (BuildScript.main H bundler none now fs ⟨o, true, false⟩).exitCode = 0
    ∧ (BuildScript.main H bundler none now fs ⟨o, true, false⟩).built =
        (unitFilter fs.interfacesRoot.entries).map (fun e => e.name)
    ∧ "Warning: Could not detect changes, building all interfaces"
        ∈ (BuildScript.main H bundler none now fs ⟨o, true, false⟩).log := by
  have hscan : BuildScript.scan fs.interfacesRoot.entries ≠ [] := by
    unfold BuildScript.scan
    simpa using hne
  have hcond : ((⟨o, true, false⟩ : Args).only.isNone &&
      !(⟨o, true, false⟩ : Args).changed) = false := by
    simp
  rw [main_discovered H bundler none now fs ⟨o, true, false⟩ hpres,
    mainBody_changed_detection_failed H bundler now fs o _ hscan,
    runBuild_noclear H bundler now fs _ _ _ hcond]
  refine ⟨rfl, ?_, ?_⟩
  · show (BuildScript.scan fs.interfacesRoot.entries).map (fun i => i.name) = _
    unfold BuildScript.scan
    simp [List.map_map, Function.comp]
  · simp [BuildScript.logHeader, List.mem_append]

theorem changed_mode_detection_failure_builds_all_witness :
    fsNoManifest.interfacesRoot.present = true
    ∧ unitFilter fsNoManifest.interfacesRoot.entries ≠ []
    ∧ (BuildScript.main id (fun i => "js:" ++ i.name) none "t1" fsNoManifest
        ⟨none, true, false⟩).exitCode = 0
    ∧ (BuildScript.main id (fun i => "js:" ++ i.name) none "t1" fsNoManifest
        ⟨none, true, false⟩).built = ["widget", "dashboard"]
    ∧ "Warning: Could not detect changes, building all interfaces"
        ∈ (BuildScript.main id (fun i => "js:" ++ i.name) none "t1" fsNoManifest
            ⟨none, true, false⟩).log := by
  have h := changed_mode_detection_failure_builds_all id (fun i => "js:" ++ i.name)
    "t1" fsNoManifest none rfl (by decide)
  exact ⟨rfl, by decide, h.1, by rw [h.2.1]; rfl, h.2.2⟩

/-- C5 counterexample: an invocation carrying --only=bogus together with
--force does have an unknown requested name, yet the run does not fail:
the force branch skips the validation, every discovered unit is built
and the exit code is 0, contradicting the claim as stated for every
invocation with an unknown only name. -/
theorem only_unknown_with_force_builds_all :
    BuildScript.parseArgs ["--only=bogus", "--force"] = ⟨some ["bogus"], false, true⟩
    ∧ (((unitFilter fsNoManifest.interfacesRoot.entries).map
        (fun e => e.name)).contains "bogus") = false
    ∧ (BuildScript.main id (fun i => "js:" ++ i.name) none "t1" fsNoManifest
        (BuildScript.parseArgs ["--only=bogus", "--force"])).exitCode = 0
    ∧ (BuildScript.main id (fun i => "js:" ++ i.name) none "t1" fsNoManifest
        (BuildScript.parseArgs ["--only=bogus", "--force"])).built =
        ["widget", "dashboard"] := by
  exact ⟨by decide, by decide, by decide, by decide⟩

/-- C5 (amended): with --only=names and neither --changed nor --force
passed, and at least one unit discovered, any unknown requested name
makes the run fail before doing any work: exit code 1, the complete
invalid-name list reported in one message, no bundler invocation and the
file system returned untouched. -/
theorem only_unknown_rejected (H : String → String) (bundler : BuildIface → String)
    (detectOut : Option (List String)) (now : String) (fs : FS) (req : List String)
    (hpres : fs.interfacesRoot.present = true)
    (hne : unitFilter fs.interfacesRoot.entries ≠ [])
    (hinv : req.filter (fun n =>
      !(((unitFilter fs.interfacesRoot.entries).map (fun e => e.name)).contains n)) ≠ []) :
    BuildScript.main H bundler detectOut now fs ⟨some req, false, false⟩ =
      ⟨fs, 1, [],
        BuildScript.logHeader (BuildScript.scan fs.interfacesRoot.entries) ++
          ["Error: Unknown interface(s): " ++ String.intercalate ", "
              (req.filter fun n =>
                !(((unitFilter fs.interfacesRoot.entries).map (fun e => e.name)).contains n)),
            "Available: " ++ String.intercalate ", "
              ((unitFilter fs.interfacesRoot.entries).map (fun e => e.name))]⟩ := by
  have hscan : BuildScript.scan fs.interfacesRoot.entries ≠ [] := by
    unfold BuildScript.scan
    simpa using hne
  have hnames : (BuildScript.scan fs.interfacesRoot.entries).map (fun i => i.name) =
      (unitFilter fs.interfacesRoot.entries).map (fun e => e.name) := by
    unfold BuildScript.scan
    simp [List.map_map, Function.comp]
  rw [main_discovered H bundler detectOut now fs _ hpres,
    mainBody_only_invalid H bundler detectOut now fs req _ hscan
      (by rw [hnames]; exact hinv)]
  rw [hnames]

theorem only_unknown_rejected_witness :
    fsNoManifest.interfacesRoot.present = true
    ∧ unitFilter fsNoManifest.interfacesRoot.entries ≠ []
    ∧ (["bogus", "widget"].filter (fun n =>
        !(((unitFilter fsNoManifest.interfacesRoot.entries).map
          (fun e => e.name)).contains n))) = ["bogus"]
    ∧ BuildScript.main id (fun i => "js:" ++ i.name) none "t1" fsNoManifest
        ⟨some ["bogus", "widget"], false, false⟩ =
      ⟨fsNoManifest, 1, [],
        ["Discovering interfaces...",
         "Found 2 interface(s): widget, dashboard",
         "Error: Unknown interface(s): bogus",
         "Available: widget, dashboard"]⟩ := by
  refine ⟨rfl, by decide, by decide, ?_⟩
  rw [only_unknown_rejected id (fun i => "js:" ++ i.name) none "t1" fsNoManifest
    ["bogus", "widget"] rfl (by decide) (by decide)]
  rfl

/-! Detection right after a manifest regeneration (C2). -/

theorem detectChanges_unchanged (H : String → String) (fs : FS) (m : Manifest)
    (hpres : fs.interfacesRoot.present = true)
    (hm : loadManifest fs.manifestFile = some m)
    (heq : m.sharedHash = calculateSharedHash H fs.shared fs.viteConfig)
    (hall : ∀ i ∈ (unitFilter fs.interfacesRoot.entries).map
        (fun e => (⟨e.name, e.tree⟩ : Iface)),
      ∃ entry, alookup m.bundles i.name = some entry ∧
        entry.sourceHash = hashDirectory H i.tree) :
    Detect.detectChanges H fs = some ⟨[], "No changes detected", false⟩ := by
  have hfilter : ((unitFilter fs.interfacesRoot.entries).map
      (fun e => (⟨e.name, e.tree⟩ : Iface))).filter (Detect.entryChanged H m) = [] := by
    rw [List.filter_eq_nil_iff]
    intro i hiL
    obtain ⟨entry, hlk, hsh⟩ := hall i hiL
    simp [Detect.entryChanged, hlk, hsh]
  unfold Detect.detectChanges Detect.discoverInterfaces
  rw [hpres]
  simp only [if_true, hm]
  rw [if_neg (fun hne => hne heq), hfilter]
  rfl

theorem detect_after_generate (H : String → String) (fs : FS) (now : String)
    (hpres : fs.interfacesRoot.present = true)
    (hnodup : (fs.interfacesRoot.entries.map UnitDir.name).Nodup)
    (hball : ∀ i ∈ (unitFilter fs.interfacesRoot.entries).map
        (fun e => (⟨e.name, e.tree⟩ : Iface)),
      (GenManifest.getBundleInfo fs.bundles i.name).isSome = true) :
    Detect.detectChanges H
      { fs with manifestFile := .parsed (GenManifest.generateManifest H fs now) } =
      some ⟨[], "No changes detected", false⟩ := by
  have hLnames : (((unitFilter fs.interfacesRoot.entries).map
      (fun e => (⟨e.name, e.tree⟩ : Iface))).map Iface.name).Nodup := by
    have hsub : ((unitFilter fs.interfacesRoot.entries).map UnitDir.name).Sublist
        (fs.interfacesRoot.entries.map UnitDir.name) :=
      List.Sublist.map _ (List.filter_sublist _)
    have h₁ : ((unitFilter fs.interfacesRoot.entries).map UnitDir.name).Nodup :=
      List.Nodup.sublist hsub hnodup
    rw [List.map_map]
    exact h₁
  have hbundles : (GenManifest.generateManifest H fs now).bundles =
      ((unitFilter fs.interfacesRoot.entries).map
        (fun e => (⟨e.name, e.tree⟩ : Iface))).filterMap
        (GenManifest.bundleEntry H fs.bundles) := by
    show (GenManifest.discoverInterfaces fs.interfacesRoot).filterMap
      (GenManifest.bundleEntry H fs.bundles) = _
    unfold GenManifest.discoverInterfaces
    rw [hpres]
    simp
  apply detectChanges_unchanged H
    { fs with manifestFile := .parsed (GenManifest.generateManifest H fs now) }
    (GenManifest.generateManifest H fs now) hpres rfl rfl
  intro i hi
  obtain ⟨info, hinfo⟩ := Option.isSome_iff_exists.mp (hball i hi)
  refine ⟨⟨hashDirectory H i.tree, info.1, info.2.1, info.2.2⟩, ?_, rfl⟩
  rw [hbundles]
  exact alookup_manifest_bundles H fs.bundles _ i hi hLnames info hinfo

/-- C2: with no manifest on disk, detection reports every discovered
unit as changed; and right after a default full build, which bundles
every discovered unit and regenerates the manifest, detection on the
resulting checkout reports an empty changed set. -/
theorem first_run_detect_then_rebuild_empty (H : String → String)
    (bundler : BuildIface → String) (detectOut : Option (List String))
    (now : String) (fs : FS)
    (hpres : fs.interfacesRoot.present = true)
    (hnodup : (fs.interfacesRoot.entries.map UnitDir.name).Nodup)
    (hne : unitFilter fs.interfacesRoot.entries ≠ []) :
    (loadManifest fs.manifestFile = none →
      Detect.detectChanges H fs =
        some ⟨(unitFilter fs.interfacesRoot.entries).map (fun e => e.name),
          "No manifest found - all interfaces need building", false⟩)
    ∧ Detect.detectChanges H
        (BuildScript.main H bundler detectOut now fs ⟨none, false, false⟩).fs =
        some ⟨[], "No changes detected", false⟩ := by
  constructor
  · intro hload
    unfold Detect.detectChanges Detect.discoverInterfaces
    rw [hpres]
    simp only [if_true, hload]
    simp [List.map_map, Function.comp]
  · have hscan : BuildScript.scan fs.interfacesRoot.entries ≠ [] := by
      unfold BuildScript.scan
      simpa using hne
    rw [main_discovered H bundler detectOut now fs _ hpres,
      mainBody_default H bundler detectOut now fs _ hscan,
      runBuild_clear H bundler now fs ⟨none, false, false⟩
        (BuildScript.scan fs.interfacesRoot.entries)
        (BuildScript.logHeader (BuildScript.scan fs.interfacesRoot.entries)) rfl]
    have hsnodup : ((BuildScript.scan fs.interfacesRoot.entries).map
        BuildIface.name).Nodup := by
      have hsub : ((unitFilter fs.interfacesRoot.entries).map UnitDir.name).Sublist
          (fs.interfacesRoot.entries.map UnitDir.name) :=
        List.Sublist.map _ (List.filter_sublist _)
      have h₁ : ((unitFilter fs.interfacesRoot.entries).map UnitDir.name).Nodup :=
        List.Nodup.sublist hsub hnodup
      unfold BuildScript.scan
      rw [List.map_map]
      exact h₁
    exact detect_after_generate H
      { fs with bundles := (BuildScript.buildAll bundler now [] (BuildScript.scan fs.interfacesRoot.entries)) }
      now hpres hnodup
      (by
        intro i hi
        obtain ⟨e, he, rfl⟩ := List.mem_map.mp hi
        have hbi : (⟨e.name, e.tree, BuildScript.globalNameOf e.name⟩ : BuildIface) ∈
            BuildScript.scan fs.interfacesRoot.entries :=
          List.mem_map_of_mem _ he
        have hlk : alookup (BuildScript.buildAll bundler now []
              (BuildScript.scan fs.interfacesRoot.entries)) e.name =
            some ⟨bundler ⟨e.name, e.tree, BuildScript.globalNameOf e.name⟩, now⟩ :=
          alookup_buildAll_of_mem bundler now _ [] _ hbi hsnodup
        simp [GenManifest.getBundleInfo, hlk])

theorem first_run_detect_then_rebuild_empty_witness :
    fsNoManifest.interfacesRoot.present = true
    ∧ (fsNoManifest.interfacesRoot.entries.map UnitDir.name).Nodup
    ∧ unitFilter fsNoManifest.interfacesRoot.entries ≠ []
    ∧ loadManifest fsNoManifest.manifestFile = none
    ∧ Detect.detectChanges id fsNoManifest =
        some ⟨["widget", "dashboard"],
          "No manifest found - all interfaces need building", false⟩
    ∧ Detect.detectChanges id
        (BuildScript.main id (fun i => "js:" ++ i.name) none "t1" fsNoManifest
          ⟨none, false, false⟩).fs =
        some ⟨[], "No changes detected", false⟩ := by
  have h := first_run_detect_then_rebuild_empty id (fun i => "js:" ++ i.name) none "t1"
    fsNoManifest rfl (by decide) (by decide)
  exact ⟨rfl, by decide, by decide, rfl, by rw [h.1 rfl]; rfl, h.2⟩

/-! Selective builds leave other units untouched (C7). -/

theorem genManifest_bundles (H : String → String) (fs : FS) (now : String)
    (hpres : fs.interfacesRoot.present = true) :
    (GenManifest.generateManifest H fs now).bundles =
      ((unitFilter fs.interfacesRoot.entries).map
        (fun e => (⟨e.name, e.tree⟩ : Iface))).filterMap
        (GenManifest.bundleEntry H fs.bundles) := by
  show (GenManifest.discoverInterfaces fs.interfacesRoot).filterMap
    (GenManifest.bundleEntry H fs.bundles) = _
  unfold GenManifest.discoverInterfaces
  rw [hpres]
  simp

theorem unitFilter_iface_names_nodup (entries : List UnitDir)
    (hnodup : (entries.map UnitDir.name).Nodup) :
    (((unitFilter entries).map
      (fun e => (⟨e.name, e.tree⟩ : Iface))).map Iface.name).Nodup := by
  have hsub : ((unitFilter entries).map UnitDir.name).Sublist (entries.map UnitDir.name) :=
    List.Sublist.map _ (List.filter_sublist _)
  have h₁ := List.Nodup.sublist hsub hnodup
  rw [List.map_map]
  exact h₁

/-- C7: a selective build of A alone leaves any other unit B untouched:
B is never handed to the bundler, its bundle file stays byte-identical,
and the regenerated manifest re-records B from its unchanged source tree
and existing bundle, so its entry keeps the same source digest as the
prior manifest entry. -/
theorem selective_build_nondestructive (H : String → String)
    (bundler : BuildIface → String) (detectOut : Option (List String))
    (now : String) (fs : FS) (A B : BuildIface) (b : Bundle) (m : Manifest)
    (oldE : ManifestEntry)
    (hpres : fs.interfacesRoot.present = true)
    (hnodup : (fs.interfacesRoot.entries.map UnitDir.name).Nodup)
    (hA : A ∈ BuildScript.scan fs.interfacesRoot.entries)
    (hB : B ∈ BuildScript.scan fs.interfacesRoot.entries)
    (hAB : B.name ≠ A.name)
    (hb : alookup fs.bundles B.name = some b)
    (_hm : loadManifest fs.manifestFile = some m)
    (_hold : alookup m.bundles B.name = some oldE)
    (hfresh : oldE.sourceHash = hashDirectory H B.tree) :
    (BuildScript.main H bundler detectOut now fs ⟨some [A.name], false, false⟩).exitCode = 0
    ∧ (∀ n ∈ (BuildScript.main H bundler detectOut now fs
        ⟨some [A.name], false, false⟩).built, n = A.name)
    ∧ alookup (BuildScript.main H bundler detectOut now fs
        ⟨some [A.name], false, false⟩).fs.bundles B.name = some b
    ∧ ∃ m₁, (BuildScript.main H bundler detectOut now fs
          ⟨some [A.name], false, false⟩).fs.manifestFile = ManifestFile.parsed m₁
        ∧ alookup m₁.bundles B.name =
            some ⟨oldE.sourceHash, B.name ++ ".js", b.content.length, b.mtime⟩ := by
  have hscan : BuildScript.scan fs.interfacesRoot.entries ≠ [] := by
    intro hemp
    rw [hemp] at hA
    cases hA
  have hcontA : (((BuildScript.scan fs.interfacesRoot.entries).map
      (fun i => i.name)).contains A.name) = true := by
    simpa using List.mem_map_of_mem (fun i => BuildIface.name i) hA
  have hval : ([A.name].filter (fun n =>
      !(((BuildScript.scan fs.interfacesRoot.entries).map
        (fun i => i.name)).contains n))) = [] := by
    simp [hcontA]
    exact ⟨A, hA, rfl⟩
  have hsel : ∀ i ∈ (BuildScript.scan fs.interfacesRoot.entries).filter
      (fun i => [A.name].contains i.name), i.name = A.name := by
    intro i hi
    have hp := (List.mem_filter.mp hi).2
    simpa using hp
  have hne' : ∀ i ∈ (BuildScript.scan fs.interfacesRoot.entries).filter
      (fun i => [A.name].contains i.name), i.name ≠ B.name := by
    intro i hi heq
    exact hAB (heq ▸ hsel i hi)
  rw [main_discovered H bundler detectOut now fs _ hpres,
    mainBody_only_valid H bundler detectOut now fs [A.name] _ hscan hval,
    runBuild_noclear H bundler now fs ⟨some [A.name], false, false⟩
      ((BuildScript.scan fs.interfacesRoot.entries).filter
        (fun i => [A.name].contains i.name))
      (BuildScript.logHeader (BuildScript.scan fs.interfacesRoot.entries) ++
        ["Building specified interfaces: " ++ String.intercalate ", " [A.name]]) rfl]
  have hlk₂ : alookup (BuildScript.buildAll bundler now fs.bundles
      ((BuildScript.scan fs.interfacesRoot.entries).filter
        (fun i => [A.name].contains i.name))) B.name = some b := by
    rw [alookup_buildAll_of_ne bundler now _ fs.bundles B.name hne']
    exact hb
  refine ⟨rfl, ?_, hlk₂, ?_⟩
  · intro n hn
    obtain ⟨i, hi, rfl⟩ := List.mem_map.mp hn
    exact hsel i hi
  · refine ⟨GenManifest.generateManifest H
      { fs with bundles := (BuildScript.buildAll bundler now fs.bundles
        ((BuildScript.scan fs.interfacesRoot.entries).filter
          (fun i => [A.name].contains i.name))) } now, rfl, ?_⟩
    have hgb : GenManifest.getBundleInfo (BuildScript.buildAll bundler now fs.bundles
        ((BuildScript.scan fs.interfacesRoot.entries).filter
          (fun i => [A.name].contains i.name))) B.name =
        some (B.name ++ ".js", b.content.length, b.mtime) := by
      unfold GenManifest.getBundleInfo
      rw [hlk₂]
    have hBg : (⟨B.name, B.tree⟩ : Iface) ∈ (unitFilter fs.interfacesRoot.entries).map
        (fun e => (⟨e.name, e.tree⟩ : Iface)) := by
      obtain ⟨e, he, heq⟩ := List.mem_map.mp hB
      have hmm : (⟨e.name, e.tree⟩ : Iface) ∈ (unitFilter fs.interfacesRoot.entries).map
          (fun e => (⟨e.name, e.tree⟩ : Iface)) :=
        List.mem_map_of_mem _ he
      have hname : e.name = B.name := congrArg BuildIface.name heq
      have htree : e.tree = B.tree := congrArg BuildIface.tree heq
      rw [hname, htree] at hmm
      exact hmm
    have hmb := alookup_manifest_bundles H
      (BuildScript.buildAll bundler now fs.bundles
        ((BuildScript.scan fs.interfacesRoot.entries).filter
          (fun i => [A.name].contains i.name)))
      ((unitFilter fs.interfacesRoot.entries).map (fun e => (⟨e.name, e.tree⟩ : Iface)))
      ⟨B.name, B.tree⟩ hBg (unitFilter_iface_names_nodup _ hnodup)
      (B.name ++ ".js", b.content.length, b.mtime) hgb
    rw [hfresh]
    rw [genManifest_bundles H
      { fs with bundles := (BuildScript.buildAll bundler now fs.bundles
        ((BuildScript.scan fs.interfacesRoot.entries).filter
          (fun i => [A.name].contains i.name))) } now hpres]
    exact hmb

theorem selective_build_nondestructive_witness :
    (⟨"widget", dirW, BuildScript.globalNameOf "widget"⟩ : BuildIface) ∈
        BuildScript.scan fsPrior.interfacesRoot.entries
    ∧ (⟨"dashboard", dirD, BuildScript.globalNameOf "dashboard"⟩ : BuildIface) ∈
        BuildScript.scan fsPrior.interfacesRoot.entries
    ∧ alookup fsPrior.bundles "dashboard" = some bundleD
    ∧ alookup manifestPrior.bundles "dashboard" =
        some ⟨hashDirectory id dirD, "dashboard.js", bundleD.content.length, "t0"⟩
    ∧ alookup (BuildScript.main id (fun i => "js:" ++ i.name) none "t1" fsPrior
        ⟨some ["widget"], false, false⟩).fs.bundles "dashboard" = some bundleD
    ∧ ∃ m₁, (BuildScript.main id (fun i => "js:" ++ i.name) none "t1" fsPrior
          ⟨some ["widget"], false, false⟩).fs.manifestFile = ManifestFile.parsed m₁
        ∧ alookup m₁.bundles "dashboard" =
            some ⟨hashDirectory id dirD, "dashboard.js", bundleD.content.length,
              bundleD.mtime⟩ := by
  have h := selective_build_nondestructive id (fun i => "js:" ++ i.name) none "t1"
    fsPrior ⟨"widget", dirW, BuildScript.globalNameOf "widget"⟩
    ⟨"dashboard", dirD, BuildScript.globalNameOf "dashboard"⟩ bundleD manifestPrior
    ⟨hashDirectory id dirD, "dashboard.js", bundleD.content.length, "t0"⟩
    rfl (by decide) (by decide) (by decide) (by decide) (by decide) rfl (by decide) rfl
  exact ⟨by decide, by decide, by decide, by decide, h.2.2.1, h.2.2.2⟩

end CreatorCore
